import Mathlib

/-!
Verification of the calendar widget state machine of `bits-ui`
(`src/packages/bits-ui/src/lib/bits/calendar/calendar.svelte.ts`), shallowly
embedded in Lean 4.  Calendar dates are modelled as `(year, month, day)`
triples of integers; the committed selection is a tagged value mirroring the
TypeScript union `DateValue | undefined | DateValue[]`; the selection-mutation
entry point `handleCellClick`, the private helpers `#handleSingleUpdate` and
`#handleMultipleUpdate`, the day cell's click guard, the `isDateDisabled`
method, the value → placeholder synchronization watcher, and the page
navigation are translated below, together with their announcement and
callback side effects reified as outputs.
-/

namespace BitsCalendar

/-- A calendar date, modelling the external `@internationalized/date`
`CalendarDate` capability: an immutable `(year, month, day)` value. -/
structure CalDate where
  year : Int
  month : Int
  day : Int
deriving DecidableEq, Repr

/-- Models `isSameDay` from the external `@internationalized/date` capability:
two calendar dates are the same day when their year, month and day coincide. -/
def isSameDay (a b : CalDate) : Bool :=
  a.year == b.year && a.month == b.month && a.day == b.day

/-- Modelled from the spec: `isBefore` from the repository's shared date utils
(`$lib/shared/date/utils.js`, whose source is not under `src/`).  The spec
treats the date capability as "comparable by calendar day" and `isDateDisabled`
uses `isBefore` for the strict "before `minValue` / after `maxValue`" bound
tests, so `isBefore a b` is the strict calendar-order comparison: `a` is
strictly earlier than `b`. -/
def isBefore (a b : CalDate) : Bool :=
  a.year < b.year ||
    (a.year == b.year && (a.month < b.month || (a.month == b.month && a.day < b.day)))

/-- The `type` prop of the calendar root: `"single" | "multiple"`. -/
inductive CalendarType where
  | single
  | multiple
deriving DecidableEq, Repr

/-- The committed selection value, mirroring the TypeScript union
`DateValue | undefined | DateValue[]` held in `value.current`.  `undef` is
`undefined`, `single d` a plain date, `multiple ds` an array of dates. -/
inductive CalValue where
  | undef : CalValue
  | single : CalDate → CalValue
  | multiple : List CalDate → CalValue
deriving DecidableEq, Repr

/-- The configuration of a `CalendarRootState` relevant to selection: the
boxed props read by `handleCellClick`, `isDateDisabled` and the update
helpers, plus the build flag `DEV` from `esm-env` and the formatter's
`selectedDate` rendering (external capability, kept opaque as a function). -/
structure CalConfig where
  dev : Bool
  readonly : Bool
  preventDeselect : Bool
  disabled : Bool
  type : CalendarType
  minValue : Option CalDate
  maxValue : Option CalDate
  isDateDisabledProp : CalDate → Bool
  isDateUnavailableProp : CalDate → Bool
  fmt : CalDate → String

/-- The mutable state owned by the root that selection transitions touch:
the committed `value` and the navigation `placeholder`. -/
structure CalState where
  value : CalValue
  placeholder : CalDate
deriving DecidableEq, Repr

/-- One call to the shared `Announcer`: `announce(message, politeness, durationMs?)`. -/
structure Announcement where
  message : String
  politeness : String
  durationMs : Option Nat
deriving DecidableEq, Repr

/-- The observable outcome of one `handleCellClick` call: the new state, the
announcements made, and whether the `onDateSelect` callback was invoked. -/
structure ClickResult where
  state : CalState
  announcements : List Announcement
  onDateSelectInvoked : Bool
deriving DecidableEq, Repr

/-- `CalendarRootState.isDateDisabled` (calendar.svelte.ts lines 349-356):
true when the `isDateDisabled` matcher prop accepts the date, or the
calendar-wide `disabled` flag is set, or the date is strictly before
`minValue`, or strictly after `maxValue`. -/
def isDateDisabled (cfg : CalConfig) (date : CalDate) : Bool :=
  if cfg.isDateDisabledProp date || cfg.disabled then true
  else if (match cfg.minValue with
    | some minV => isBefore date minV
    | none => false) then true
  else if (match cfg.maxValue with
    | some maxV => isBefore maxV date
    | none => false) then true
  else false

/-- `CalendarRootState.isDateSelected` (lines 358-367): same-day membership
test against the committed selection value. -/
def isDateSelected (value : CalValue) (date : CalDate) : Bool :=
  match value with
  | .multiple ds => ds.any fun d => isSameDay d date
  | .undef => false
  | .single v => isSameDay v date

/-- `CalendarRootState.#handleMultipleUpdate` (lines 414-434), over the full
runtime domain of `prev`.  Returns the new value and, when the helper assigns
`placeholder.current`, the assigned date.  The `.single` case is the
`!Array.isArray(prev)` branch: a hard error when `DEV`, otherwise the bare
`return;` yields `undefined`, which the caller would store as the value.
(That branch is unreachable from `handleCellClick`, which checks the shape
before delegating.) -/
def handleMultipleUpdate (cfg : CalConfig) (prev : CalValue) (date : CalDate) :
    Except String (CalValue × Option CalDate) :=
  match prev with
  | .undef => .ok (.multiple [date], none)
  | .single _ =>
      if cfg.dev then .error "Invalid value for multiple prop."
      else .ok (.undef, none)
  | .multiple ds =>
      match ds.find? (fun d => isSameDay d date) with
      | none => .ok (.multiple (ds ++ [date]), none)
      | some _ =>
          if cfg.preventDeselect then .ok (.multiple ds, none)
          else
            let next := ds.filter fun d => !isSameDay d date
            if next.isEmpty then .ok (.undef, some date)
            else .ok (.multiple next, none)

/-- `CalendarRootState.#handleSingleUpdate` (lines 436-447), over the full
runtime domain of `prev`.  Returns the next value (`none` = `undefined`) and,
when the helper assigns `placeholder.current`, the assigned date.  The
`.multiple` case is the `Array.isArray(prev)` branch: a hard error when
`DEV`; without `DEV` it falls through — a JavaScript array is truthy and the
external `isSameDay` comparison against an array is `false`, so the clicked
date is committed.  (That branch is unreachable from `handleCellClick`,
which checks the shape before delegating.) -/
def handleSingleUpdate (cfg : CalConfig) (prev : CalValue) (date : CalDate) :
    Except String (Option CalDate × Option CalDate) :=
  match prev with
  | .multiple _ =>
      if cfg.dev then .error "Invalid value for single prop."
      else .ok (some date, none)
  | .undef => .ok (some date, none)
  | .single p =>
      if !cfg.preventDeselect && isSameDay p date then .ok (none, some date)
      else .ok (some date, none)

/-- `CalendarRootState.handleCellClick` (lines 382-412).  No-op when
`readonly`, or when the `isDateDisabled` / `isDateUnavailable` matcher props
accept the date.  In multiple mode the update runs only when the stored value
is an array or `undefined`; in single mode only when it is not an array.  In
single mode the result is announced ("Selected date is now empty." politely
for 5000 ms on clear, "Selected Date: <formatted>" politely on commit) and
`onDateSelect` is invoked exactly when the new value is defined. -/
def handleCellClick (cfg : CalConfig) (st : CalState) (date : CalDate) :
    Except String ClickResult :=
  if cfg.readonly then .ok ⟨st, [], false⟩
  else if cfg.isDateDisabledProp date || cfg.isDateUnavailableProp date then
    .ok ⟨st, [], false⟩
  else
    let prev := st.value
    if cfg.type = CalendarType.multiple then
      match prev with
      | .single _ => .ok ⟨st, [], false⟩
      | _ =>
          match handleMultipleUpdate cfg prev date with
          | .error e => .error e
          | .ok (next, placeholderSet) =>
              .ok ⟨⟨next, placeholderSet.getD st.placeholder⟩, [], false⟩
    else
      match prev with
      | .multiple _ => .ok ⟨st, [], false⟩
      | _ =>
          match handleSingleUpdate cfg prev date with
          | .error e => .error e
          | .ok (next, placeholderSet) =>
              match next with
              | none =>
                  .ok ⟨⟨CalValue.undef, placeholderSet.getD st.placeholder⟩,
                    [⟨"Selected date is now empty.", "polite", some 5000⟩], false⟩
              | some v =>
                  .ok ⟨⟨CalValue.single v, placeholderSet.getD st.placeholder⟩,
                    [⟨"Selected Date: " ++ cfg.fmt v, "polite", none⟩], true⟩

/-- `CalendarDayState.#onclick` (lines 675-678): a pointer activation of a day
cell is guarded by the cell's `isDisabled` (the root's full `isDateDisabled`,
bounds included) and otherwise delegates to `handleCellClick`. -/
def dayOnClick (cfg : CalConfig) (st : CalState) (date : CalDate) :
    Except String ClickResult :=
  if isDateDisabled cfg date then .ok ⟨st, [], false⟩
  else handleCellClick cfg st date

/-- The state after one `handleCellClick`.  The error branch is unreachable
from `handleCellClick` (the shape guards run first); a thrown error would in
any case abort before any assignment, leaving the state unchanged. -/
def clickState (cfg : CalConfig) (st : CalState) (date : CalDate) : CalState :=
  match handleCellClick cfg st date with
  | .ok r => r.state
  | .error _ => st

/-- The state after a sequence of `handleCellClick` calls. -/
def runClicks (cfg : CalConfig) (st : CalState) : List CalDate → CalState
  | [] => st
  | d :: ds => runClicks cfg (clickState cfg st d) ds

/-- The value → placeholder synchronization watcher installed in the root's
constructor (lines 221-231): when the value becomes a non-empty array the
placeholder becomes its last element; when it becomes a defined non-array
value the placeholder becomes that value; otherwise the placeholder is left
alone.  Returns the new placeholder; the watcher never writes the value. -/
def syncPlaceholderWithValue (value : CalValue) (placeholder : CalDate) : CalDate :=
  match value with
  | .multiple ds =>
      match ds.getLast? with
      | some lastValue => if placeholder = lastValue then placeholder else lastValue
      | none => placeholder
  | .single v => if placeholder = v then placeholder else v
  | .undef => placeholder

/-- A duplicate-free selection: no two entries of a stored array are
same-day equal (non-array values carry no duplication). -/
def dupFree : CalValue → Prop
  | .multiple ds => ds.Pairwise fun a b => isSameDay a b = false
  | _ => True

/-- The absolute month index of a date: months since the epoch month. -/
def monthIndex (d : CalDate) : Int :=
  d.year * 12 + (d.month - 1)

/-- The first day of the month with the given absolute month index. -/
def monthOfIndex (i : Int) : CalDate :=
  ⟨i / 12, i % 12 + 1, 1⟩

/-- Modelled from the spec: `handleCalendarNextPage` from
`$lib/shared/date/calendar-helpers.svelte.js` (not under `src/`), invoked by
`CalendarRootState.nextPage` (lines 254-265).  "If `pagedNavigation` is set,
jump by exactly `monthCount` months; otherwise jump by exactly one month",
advancing the placeholder forward. -/
def nextPagePlaceholder (pagedNavigation : Bool) (numberOfMonths : Nat) (d : CalDate) :
    CalDate :=
  monthOfIndex (monthIndex d + (if pagedNavigation then (numberOfMonths : Int) else 1))

/-- Modelled from the spec: `handleCalendarPrevPage` from
`$lib/shared/date/calendar-helpers.svelte.js` (not under `src/`), invoked by
`CalendarRootState.prevPage` (lines 270-281).  The same jump magnitude as
`nextPagePlaceholder`, retreating the placeholder backward. -/
def prevPagePlaceholder (pagedNavigation : Bool) (numberOfMonths : Nat) (d : CalDate) :
    CalDate :=
  monthOfIndex (monthIndex d - (if pagedNavigation then (numberOfMonths : Int) else 1))

/-- Modelled from the spec: the visible month window rebuilt from the
placeholder, "`monthCount` consecutive months starting at `placeholder`'s
month" (each entry the first day of its month). -/
def windowMonths (d : CalDate) (numberOfMonths : Nat) : List CalDate :=
  (List.range numberOfMonths).map fun i => monthOfIndex (monthIndex d + i)

/-- A rendering of a date for the formatter capability, kept concrete so that
sample configurations are executable. -/
def sampleFmt (d : CalDate) : String :=
  toString d.year ++ "-" ++ toString d.month ++ "-" ++ toString d.day

/-- A baseline configuration: single mode, no bounds, no matchers, all flags
off.  Concrete scenarios below adjust individual fields. -/
def openCfg : CalConfig where
  dev := false
  readonly := false
  preventDeselect := false
  disabled := false
  type := CalendarType.single
  minValue := none
  maxValue := none
  isDateDisabledProp := fun _ => false
  isDateUnavailableProp := fun _ => false
  fmt := sampleFmt

/-- Claim C1: a click on a day cell whose date is disabled (matcher,
calendar-wide flag, or the `minValue`/`maxValue` bounds), or unavailable, or
performed while `readonly` is set, is a no-op: the committed selection and the
placeholder are unchanged, nothing is announced and `onDateSelect` is not
invoked. -/
theorem C1_disabled_unavailable_readonly_click_noop
    (cfg : CalConfig) (st : CalState) (date : CalDate)
    (h : isDateDisabled cfg date = true ∨ cfg.isDateUnavailableProp date = true ∨
      cfg.readonly = true) :
    dayOnClick cfg st date = .ok ⟨st, [], false⟩ := by
  unfold dayOnClick
  by_cases hdis : isDateDisabled cfg date = true
  · simp [hdis]
  · rw [if_neg hdis]
    unfold handleCellClick
    by_cases hr : cfg.readonly = true
    · simp [hr]
    · rcases h with h | h | h
      · exact absurd h hdis
      · simp [hr, h]
      · exact absurd h hr

/-- Witness for C1 at the spec's scenario: single mode, `minValue =
2024-01-10`, clicking `2024-01-05` leaves the (empty) selection and the
placeholder unchanged. -/
theorem C1_witness :
    isDateDisabled { openCfg with minValue := some ⟨2024, 1, 10⟩ } ⟨2024, 1, 5⟩ = true ∧
    dayOnClick { openCfg with minValue := some ⟨2024, 1, 10⟩ }
        ⟨CalValue.undef, ⟨2024, 1, 1⟩⟩ ⟨2024, 1, 5⟩ =
      .ok ⟨⟨CalValue.undef, ⟨2024, 1, 1⟩⟩, [], false⟩ :=
  ⟨by decide,
    C1_disabled_unavailable_readonly_click_noop
      { openCfg with minValue := some ⟨2024, 1, 10⟩ }
      ⟨CalValue.undef, ⟨2024, 1, 1⟩⟩ ⟨2024, 1, 5⟩ (Or.inl (by decide))⟩

/-- Counterexample to claim C2 as stated: in a development build (`DEV` set),
`handleCellClick` on a single-mode calendar whose stored value is an array
does not fail with a hard error — it returns normally with the selection and
placeholder unchanged, because the shape is checked before the update helper
(and its development-only `throw`) is ever reached. -/
theorem C2_counterexample :
    handleCellClick { openCfg with dev := true }
        ⟨CalValue.multiple [⟨2024, 1, 2⟩], ⟨2024, 1, 1⟩⟩ ⟨2024, 1, 3⟩ =
      .ok ⟨⟨CalValue.multiple [⟨2024, 1, 2⟩], ⟨2024, 1, 1⟩⟩, [], false⟩ := rfl

/-- Claim C2 (amended): when the stored selection value's shape does not match
the configured mode (an array in single mode, or a defined non-array value in
multiple mode), `handleCellClick` is a silent no-op in development and
production builds alike — selection and placeholder unchanged, nothing
announced, no callback, no error: the shape guard in `handleCellClick` makes
the development-only error of the update helpers unreachable. -/
theorem C2_shape_mismatch_silent_noop
    (cfg : CalConfig) (st : CalState) (date : CalDate)
    (h : (cfg.type = CalendarType.multiple ∧ ∃ d, st.value = CalValue.single d) ∨
      (cfg.type = CalendarType.single ∧ ∃ ds, st.value = CalValue.multiple ds)) :
    handleCellClick cfg st date = .ok ⟨st, [], false⟩ := by
  unfold handleCellClick
  by_cases hr : cfg.readonly = true
  · simp [hr]
  · by_cases hg : (cfg.isDateDisabledProp date || cfg.isDateUnavailableProp date) = true
    · simp [hr, hg]
    · rcases h with ⟨ht, d, hv⟩ | ⟨ht, ds, hv⟩
      · simp [hr, hg, ht, hv]
      · simp [hr, hg, ht, hv]

/-- Witness for the amended C2: a development-build single-mode calendar with
an array value; the click is a silent no-op. -/
theorem C2_witness :
    handleCellClick { openCfg with dev := true }
        ⟨CalValue.multiple [⟨2024, 2, 2⟩, ⟨2024, 2, 3⟩], ⟨2024, 2, 1⟩⟩ ⟨2024, 2, 4⟩ =
      .ok ⟨⟨CalValue.multiple [⟨2024, 2, 2⟩, ⟨2024, 2, 3⟩], ⟨2024, 2, 1⟩⟩, [], false⟩ :=
  C2_shape_mismatch_silent_noop { openCfg with dev := true }
    ⟨CalValue.multiple [⟨2024, 2, 2⟩, ⟨2024, 2, 3⟩], ⟨2024, 2, 1⟩⟩ ⟨2024, 2, 4⟩
    (Or.inr ⟨rfl, [⟨2024, 2, 2⟩, ⟨2024, 2, 3⟩], rfl⟩)

/-- Claim C7: `isDateDisabled` is true exactly when the disabled matcher
accepts the date, or the calendar-wide disabled flag is set, or the date is
strictly before `minValue`, or strictly after `maxValue`; same-day dates are
never strictly before one another, so a date equal by day to a bound is not
disabled by the bounds. -/
theorem C7_isDateDisabled_characterization (cfg : CalConfig) (d : CalDate) :
    (isDateDisabled cfg d = true ↔
      cfg.isDateDisabledProp d = true ∨ cfg.disabled = true ∨
      (∃ m, cfg.minValue = some m ∧ isBefore d m = true) ∨
      (∃ b, cfg.maxValue = some b ∧ isBefore b d = true)) ∧
    (∀ b, isSameDay d b = true → isBefore d b = false ∧ isBefore b d = false) ∧
    (cfg.isDateDisabledProp d = false → cfg.disabled = false →
      (∀ m, cfg.minValue = some m → isSameDay d m = true) →
      (∀ b, cfg.maxValue = some b → isSameDay d b = true) →
      isDateDisabled cfg d = false) := by
  have hsame : ∀ a b : CalDate, isSameDay a b = true →
      isBefore a b = false ∧ isBefore b a = false := by
    intro a b hab
    obtain ⟨ay, am, ad⟩ := a
    obtain ⟨cy, cm, cd⟩ := b
    simp only [isSameDay, Bool.and_eq_true, beq_iff_eq] at hab
    obtain ⟨⟨hy, hm⟩, hd⟩ := hab
    subst hy
    subst hm
    subst hd
    constructor <;> simp [isBefore]
  refine ⟨?_, fun b => hsame d b, ?_⟩
  · unfold isDateDisabled
    rcases hmn : cfg.minValue with _ | m <;> rcases hmx : cfg.maxValue with _ | b <;>
      by_cases hp : cfg.isDateDisabledProp d = true <;>
        by_cases hdd : cfg.disabled = true <;>
          simp [hp, hdd, hmn, hmx]
  · intro hp hdd hmin hmax
    unfold isDateDisabled
    rcases hmn : cfg.minValue with _ | m <;> rcases hmx : cfg.maxValue with _ | b
    · simp [hp, hdd, hmn, hmx]
    · simp [hp, hdd, hmn, hmx, (hsame d b (hmax b hmx)).2]
    · simp [hp, hdd, hmn, hmx, (hsame d m (hmin m hmn)).1]
    · simp [hp, hdd, hmn, hmx, (hsame d m (hmin m hmn)).1, (hsame d b (hmax b hmx)).2]

/-- A configuration whose two bounds are both the day 2024-05-07, for the C7
witness. -/
def c7Cfg : CalConfig :=
  { openCfg with minValue := some ⟨2024, 5, 7⟩, maxValue := some ⟨2024, 5, 7⟩ }

/-- Witness for C7: with both bounds equal by day to the date and no matcher
or flag, the date is not disabled; and same-day dates are not strictly
before one another. -/
theorem C7_witness :
    isDateDisabled c7Cfg ⟨2024, 5, 7⟩ = false ∧
    isBefore ⟨2024, 5, 7⟩ ⟨2024, 5, 7⟩ = false :=
  ⟨(C7_isDateDisabled_characterization c7Cfg ⟨2024, 5, 7⟩).2.2 rfl rfl
      (fun m hm => by
        have h := Option.some.inj hm
        subst h
        decide)
      (fun b hb => by
        have h := Option.some.inj hb
        subst h
        decide),
    ((C7_isDateDisabled_characterization c7Cfg ⟨2024, 5, 7⟩).2.1 ⟨2024, 5, 7⟩ (by decide)).1⟩

/-- Claim C3: in single mode with deselect-prevention off, for a
non-disabled, non-unavailable date `d` (and `readonly` off): from an empty
selection the first click commits `d` (placeholder untouched by the update);
a second click on a stored date same-day as `d` clears the selection and
moves the placeholder to `d`; clearing happens exactly when the prior value
is a single date same-day as the clicked one; and a click over any other
single prior value replaces it with `d`, leaving the placeholder alone. -/
theorem C3_single_mode_transitions (cfg : CalConfig) (d : CalDate)
    (hm : cfg.type = CalendarType.single) (hr : cfg.readonly = false)
    (hd : cfg.isDateDisabledProp d = false) (hu : cfg.isDateUnavailableProp d = false)
    (hp : cfg.preventDeselect = false) :
    (∀ p, clickState cfg ⟨CalValue.undef, p⟩ d = ⟨CalValue.single d, p⟩) ∧
    (∀ p q, isSameDay q d = true →
      clickState cfg ⟨CalValue.single q, p⟩ d = ⟨CalValue.undef, d⟩) ∧
    (∀ st, (∀ ds, st.value ≠ CalValue.multiple ds) →
      ((clickState cfg st d).value = CalValue.undef ↔
        ∃ q, st.value = CalValue.single q ∧ isSameDay q d = true)) ∧
    (∀ p q, isSameDay q d = false →
      clickState cfg ⟨CalValue.single q, p⟩ d = ⟨CalValue.single d, p⟩) := by
  refine ⟨?_, ?_, ?_, ?_⟩
  · intro p
    simp [clickState, handleCellClick, handleSingleUpdate, hm, hr, hd, hu]
  · intro p q hq
    simp [clickState, handleCellClick, handleSingleUpdate, hm, hr, hd, hu, hp, hq]
  · intro st hshape
    rcases hsv : st.value with _ | q | ds
    · simp [clickState, handleCellClick, handleSingleUpdate, hm, hr, hd, hu, hsv]
    · by_cases hq : isSameDay q d = true
      · simp [clickState, handleCellClick, handleSingleUpdate, hm, hr, hd, hu, hp, hsv, hq]
      · simp only [Bool.not_eq_true] at hq
        simp [clickState, handleCellClick, handleSingleUpdate, hm, hr, hd, hu, hp, hsv, hq]
    · exact absurd hsv (hshape ds)
  · intro p q hq
    simp [clickState, handleCellClick, handleSingleUpdate, hm, hr, hd, hu, hp, hq]

/-- Witness for C3: a click on 2024-06-01 from an empty selection commits it,
and a second click on the same day clears it and moves the placeholder. -/
theorem C3_witness :
    clickState openCfg ⟨CalValue.undef, ⟨2024, 5, 1⟩⟩ ⟨2024, 6, 1⟩ =
      ⟨CalValue.single ⟨2024, 6, 1⟩, ⟨2024, 5, 1⟩⟩ ∧
    clickState openCfg ⟨CalValue.single ⟨2024, 6, 1⟩, ⟨2024, 5, 1⟩⟩ ⟨2024, 6, 1⟩ =
      ⟨CalValue.undef, ⟨2024, 6, 1⟩⟩ :=
  ⟨(C3_single_mode_transitions openCfg ⟨2024, 6, 1⟩ rfl rfl rfl rfl rfl).1 ⟨2024, 5, 1⟩,
    (C3_single_mode_transitions openCfg ⟨2024, 6, 1⟩ rfl rfl rfl rfl rfl).2.1
      ⟨2024, 5, 1⟩ ⟨2024, 6, 1⟩ (by decide)⟩

/-- Claim C4: in single mode, every guard-passing `handleCellClick` over a
shape-matching value that ends with a defined selection invokes `onDateSelect`
and announces "Selected Date: <formatted>" politely; every one that clears the
selection skips the callback and announces "Selected date is now empty."
politely for 5000 ms. -/
theorem C4_single_mode_announcements (cfg : CalConfig) (st : CalState) (d : CalDate)
    (hm : cfg.type = CalendarType.single) (hr : cfg.readonly = false)
    (hd : cfg.isDateDisabledProp d = false) (hu : cfg.isDateUnavailableProp d = false)
    (hshape : ∀ ds, st.value ≠ CalValue.multiple ds) :
    ∀ r, handleCellClick cfg st d = .ok r →
      ((∀ v, r.state.value = CalValue.single v →
        r.onDateSelectInvoked = true ∧
        r.announcements = [⟨"Selected Date: " ++ cfg.fmt v, "polite", none⟩]) ∧
      (r.state.value = CalValue.undef →
        r.onDateSelectInvoked = false ∧
        r.announcements = [⟨"Selected date is now empty.", "polite", some 5000⟩])) := by
  intro r hres
  rcases hsv : st.value with _ | q | ds
  · simp [handleCellClick, handleSingleUpdate, hm, hr, hd, hu, hsv] at hres
    subst hres
    simp
  · by_cases hpd : (!cfg.preventDeselect && isSameDay q d) = true
    · simp [handleCellClick, handleSingleUpdate, hm, hr, hd, hu, hsv, hpd] at hres
      subst hres
      simp
    · simp only [Bool.not_eq_true] at hpd
      simp [handleCellClick, handleSingleUpdate, hm, hr, hd, hu, hsv, hpd] at hres
      subst hres
      simp
  · exact absurd hsv (hshape ds)

/-- Witness for C4: the commit of 2024-06-02 announces the selected date and
fires the callback; the deselect click announces the empty message without
the callback. -/
theorem C4_witness :
    (handleCellClick openCfg ⟨CalValue.undef, ⟨2024, 6, 1⟩⟩ ⟨2024, 6, 2⟩).map
        (fun r => (r.onDateSelectInvoked, r.announcements)) =
      .ok (true, [⟨"Selected Date: " ++ sampleFmt ⟨2024, 6, 2⟩, "polite", none⟩]) ∧
    (handleCellClick openCfg ⟨CalValue.single ⟨2024, 6, 2⟩, ⟨2024, 6, 1⟩⟩ ⟨2024, 6, 2⟩).map
        (fun r => (r.onDateSelectInvoked, r.announcements)) =
      .ok (false, [⟨"Selected date is now empty.", "polite", some 5000⟩]) := by
  constructor
  · have h := (C4_single_mode_announcements openCfg ⟨CalValue.undef, ⟨2024, 6, 1⟩⟩
      ⟨2024, 6, 2⟩ rfl rfl rfl rfl (fun ds h => by simp at h) _ rfl).1 ⟨2024, 6, 2⟩ rfl
    simp only [Except.map, h.1, h.2]
    rfl
  · have h := (C4_single_mode_announcements openCfg
      ⟨CalValue.single ⟨2024, 6, 2⟩, ⟨2024, 6, 1⟩⟩
      ⟨2024, 6, 2⟩ rfl rfl rfl rfl (fun ds h => by simp at h) _ rfl).2 rfl
    simp only [Except.map, h.1, h.2]
    rfl

/-- Claim C10: in single mode with deselect-prevention on, a guard-passing
click on a date same-day equal to the stored selection is not a no-op: it
re-commits the clicked date, invokes `onDateSelect`, announces the selected
date politely, and the single-update step leaves the placeholder where it
was. -/
theorem C10_preventDeselect_recommit (cfg : CalConfig) (st : CalState) (d q : CalDate)
    (hm : cfg.type = CalendarType.single) (hr : cfg.readonly = false)
    (hd : cfg.isDateDisabledProp d = false) (hu : cfg.isDateUnavailableProp d = false)
    (hp : cfg.preventDeselect = true)
    (hv : st.value = CalValue.single q) (hs : isSameDay q d = true) :
    handleCellClick cfg st d =
      .ok ⟨⟨CalValue.single d, st.placeholder⟩,
        [⟨"Selected Date: " ++ cfg.fmt d, "polite", none⟩], true⟩ := by
  simp [handleCellClick, handleSingleUpdate, hm, hr, hd, hu, hp, hv, hs]

/-- Witness for C10: with deselect-prevention on, re-clicking the selected
day 2024-06-02 re-commits it, announces it and fires the callback, with the
placeholder untouched. -/
theorem C10_witness :
    handleCellClick { openCfg with preventDeselect := true }
        ⟨CalValue.single ⟨2024, 6, 2⟩, ⟨2024, 6, 1⟩⟩ ⟨2024, 6, 2⟩ =
      .ok ⟨⟨CalValue.single ⟨2024, 6, 2⟩, ⟨2024, 6, 1⟩⟩,
        [⟨"Selected Date: " ++ sampleFmt ⟨2024, 6, 2⟩, "polite", none⟩], true⟩ :=
  C10_preventDeselect_recommit { openCfg with preventDeselect := true }
    ⟨CalValue.single ⟨2024, 6, 2⟩, ⟨2024, 6, 1⟩⟩ ⟨2024, 6, 2⟩ ⟨2024, 6, 2⟩
    rfl rfl rfl rfl rfl rfl (by decide)

/-- One multiple-mode `handleCellClick` preserves duplicate-freedom of the
stored selection. -/
theorem clickState_dupFree_step (cfg : CalConfig) (st : CalState) (d : CalDate)
    (hm : cfg.type = CalendarType.multiple) (h : dupFree st.value) :
    dupFree (clickState cfg st d).value := by
  by_cases hr : cfg.readonly = true
  · simpa [clickState, handleCellClick, hr] using h
  · by_cases hg : (cfg.isDateDisabledProp d || cfg.isDateUnavailableProp d) = true
    · simpa [clickState, handleCellClick, hr, hg] using h
    · rcases hsv : st.value with _ | q | ds
      · simp [clickState, handleCellClick, handleMultipleUpdate, hm, hr, hg, hsv, dupFree]
      · simpa [clickState, handleCellClick, hm, hr, hg, hsv] using h
      · rw [hsv] at h
        rcases hfind : ds.find? (fun x => isSameDay x d) with _ | e
        · have hnotin := List.find?_eq_none.mp hfind
          simp only [Bool.not_eq_true] at hnotin
          simp only [clickState, handleCellClick, handleMultipleUpdate, hm, hr, hg, hsv,
            hfind, if_true, if_false, Bool.false_eq_true, ite_false, ite_true, dupFree]
          simp only [dupFree] at h
          rw [List.pairwise_append]
          exact ⟨h, List.pairwise_singleton _ _,
            fun a ha b hb => by rw [List.mem_singleton.mp hb]; exact hnotin a ha⟩
        · by_cases hpd : cfg.preventDeselect = true
          · simpa [clickState, handleCellClick, handleMultipleUpdate, hm, hr, hg, hsv,
              hfind, hpd] using h
          · by_cases hni : (ds.filter fun x => !isSameDay x d).isEmpty = true
            · simp [clickState, handleCellClick, handleMultipleUpdate, hm, hr, hg, hsv,
                hfind, hpd, hni, dupFree]
            · simp only [clickState, handleCellClick, handleMultipleUpdate, hm, hr, hg,
                hsv, hfind, hpd, hni, Bool.false_eq_true, ite_false, ite_true, dupFree]
              simp only [dupFree] at h
              exact h.sublist (List.filter_sublist ds)

/-- Claim C5: in multiple mode, duplicate-freedom of the selection is an
invariant of every sequence of `handleCellClick` calls; and a guard-passing
click on the single remaining entry's day clears the selection to `undefined`
(not an empty array) and moves the placeholder to the clicked date. -/
theorem C5_multiple_mode_invariant (cfg : CalConfig)
    (hm : cfg.type = CalendarType.multiple) :
    (∀ st L, dupFree st.value → dupFree (runClicks cfg st L).value) ∧
    (∀ st e d, st.value = CalValue.multiple [e] → isSameDay e d = true →
      cfg.preventDeselect = false → cfg.readonly = false →
      cfg.isDateDisabledProp d = false → cfg.isDateUnavailableProp d = false →
      clickState cfg st d = ⟨CalValue.undef, d⟩) := by
  constructor
  · intro st L
    induction L generalizing st with
    | nil => intro h; simpa [runClicks] using h
    | cons d ds ih =>
        intro h
        simpa [runClicks] using ih _ (clickState_dupFree_step cfg st d hm h)
  · intro st e d hsv hs hp hr hd hu
    simp [clickState, handleCellClick, handleMultipleUpdate, hm, hr, hd, hu, hp, hsv, hs]

/-- A multiple-mode variant of the baseline configuration. -/
def multiCfg : CalConfig :=
  { openCfg with type := CalendarType.multiple }

/-- Witness for C5: clicking 2024-03-01, 2024-03-01 again, 2024-03-15 keeps
the selection duplicate-free, and clicking the single remaining entry clears
to `undefined` and moves the placeholder to the clicked date. -/
theorem C5_witness :
    dupFree (runClicks multiCfg ⟨CalValue.undef, ⟨2024, 1, 1⟩⟩
      [⟨2024, 3, 1⟩, ⟨2024, 3, 1⟩, ⟨2024, 3, 15⟩]).value ∧
    clickState multiCfg ⟨CalValue.multiple [⟨2024, 3, 15⟩], ⟨2024, 1, 1⟩⟩ ⟨2024, 3, 15⟩ =
      ⟨CalValue.undef, ⟨2024, 3, 15⟩⟩ :=
  ⟨(C5_multiple_mode_invariant multiCfg rfl).1 ⟨CalValue.undef, ⟨2024, 1, 1⟩⟩
      [⟨2024, 3, 1⟩, ⟨2024, 3, 1⟩, ⟨2024, 3, 15⟩] trivial,
    (C5_multiple_mode_invariant multiCfg rfl).2 ⟨CalValue.multiple [⟨2024, 3, 15⟩], ⟨2024, 1, 1⟩⟩
      ⟨2024, 3, 15⟩ ⟨2024, 3, 15⟩ rfl (by decide) rfl rfl rfl rfl⟩

/-- Claim C6: in multiple mode, a guard-passing click on a date with no
same-day entry appends it at the end of the stored array, preserving
insertion order; clicking 2024-03-01 then 2024-03-15 from empty yields
`[2024-03-01, 2024-03-15]`, and the reverse click order yields the reversed
array. -/
theorem C6_multiple_append_insertion_order (cfg : CalConfig)
    (hm : cfg.type = CalendarType.multiple) (hr : cfg.readonly = false)
    (hd : ∀ x, cfg.isDateDisabledProp x = false)
    (hu : ∀ x, cfg.isDateUnavailableProp x = false) :
    (∀ st ds d, st.value = CalValue.multiple ds →
      ds.find? (fun x => isSameDay x d) = none →
      clickState cfg st d = ⟨CalValue.multiple (ds ++ [d]), st.placeholder⟩) ∧
    (∀ p, runClicks cfg ⟨CalValue.undef, p⟩ [⟨2024, 3, 1⟩, ⟨2024, 3, 15⟩] =
      ⟨CalValue.multiple [⟨2024, 3, 1⟩, ⟨2024, 3, 15⟩], p⟩) ∧
    (∀ p, runClicks cfg ⟨CalValue.undef, p⟩ [⟨2024, 3, 15⟩, ⟨2024, 3, 1⟩] =
      ⟨CalValue.multiple [⟨2024, 3, 15⟩, ⟨2024, 3, 1⟩], p⟩) := by
  have happend : ∀ st ds d, st.value = CalValue.multiple ds →
      ds.find? (fun x => isSameDay x d) = none →
      clickState cfg st d = ⟨CalValue.multiple (ds ++ [d]), st.placeholder⟩ := by
    intro st ds d hsv hfind
    simp [clickState, handleCellClick, handleMultipleUpdate, hm, hr, hd, hu, hsv, hfind]
  have hfirst : ∀ (p : CalDate) (d : CalDate),
      clickState cfg ⟨CalValue.undef, p⟩ d = ⟨CalValue.multiple [d], p⟩ := by
    intro p d
    simp [clickState, handleCellClick, handleMultipleUpdate, hm, hr, hd, hu]
  refine ⟨happend, ?_, ?_⟩
  · intro p
    have h2 := happend ⟨CalValue.multiple [⟨2024, 3, 1⟩], p⟩ [⟨2024, 3, 1⟩] ⟨2024, 3, 15⟩
      rfl (by decide)
    simp [runClicks, hfirst, h2]
  · intro p
    have h2 := happend ⟨CalValue.multiple [⟨2024, 3, 15⟩], p⟩ [⟨2024, 3, 15⟩] ⟨2024, 3, 1⟩
      rfl (by decide)
    simp [runClicks, hfirst, h2]

/-- Witness for C6: the two-click scenario from the spec, in both orders. -/
theorem C6_witness :
    runClicks multiCfg ⟨CalValue.undef, ⟨2024, 1, 1⟩⟩ [⟨2024, 3, 1⟩, ⟨2024, 3, 15⟩] =
      ⟨CalValue.multiple [⟨2024, 3, 1⟩, ⟨2024, 3, 15⟩], ⟨2024, 1, 1⟩⟩ ∧
    runClicks multiCfg ⟨CalValue.undef, ⟨2024, 1, 1⟩⟩ [⟨2024, 3, 15⟩, ⟨2024, 3, 1⟩] =
      ⟨CalValue.multiple [⟨2024, 3, 15⟩, ⟨2024, 3, 1⟩], ⟨2024, 1, 1⟩⟩ :=
  ⟨(C6_multiple_append_insertion_order multiCfg rfl rfl (fun _ => rfl) (fun _ => rfl)).2.1
      ⟨2024, 1, 1⟩,
    (C6_multiple_append_insertion_order multiCfg rfl rfl (fun _ => rfl) (fun _ => rfl)).2.2
      ⟨2024, 1, 1⟩⟩

/-- Claim C8: the value → placeholder synchronization watcher moves the
placeholder to the last element of a non-empty stored array, or to a defined
non-array value; an empty value (`undefined` or an empty array) leaves the
placeholder unchanged.  The watcher computes only a new placeholder and never
writes the selection. -/
theorem C8_placeholder_follows_value (value : CalValue) (pl : CalDate) :
    (∀ ds d, value = CalValue.multiple ds → ds.getLast? = some d →
      syncPlaceholderWithValue value pl = d) ∧
    (∀ v, value = CalValue.single v → syncPlaceholderWithValue value pl = v) ∧
    (value = CalValue.undef → syncPlaceholderWithValue value pl = pl) ∧
    (value = CalValue.multiple [] → syncPlaceholderWithValue value pl = pl) := by
  refine ⟨?_, ?_, ?_, ?_⟩
  · intro ds d hv hl
    subst hv
    by_cases hpd : pl = d <;> simp [syncPlaceholderWithValue, hl, hpd]
  · intro v hv
    subst hv
    by_cases hpv : pl = v <;> simp [syncPlaceholderWithValue, hpv]
  · intro hv
    subst hv
    simp [syncPlaceholderWithValue]
  · intro hv
    subst hv
    simp [syncPlaceholderWithValue]

/-- Witness for C8: a two-element array moves the placeholder to its last
element; a single date moves it to that date; `undefined` and the empty array
leave it alone. -/
theorem C8_witness :
    syncPlaceholderWithValue (CalValue.multiple [⟨2024, 3, 1⟩, ⟨2024, 3, 15⟩])
      ⟨2024, 1, 1⟩ = ⟨2024, 3, 15⟩ ∧
    syncPlaceholderWithValue (CalValue.single ⟨2024, 4, 2⟩) ⟨2024, 1, 1⟩ = ⟨2024, 4, 2⟩ ∧
    syncPlaceholderWithValue CalValue.undef ⟨2024, 1, 1⟩ = ⟨2024, 1, 1⟩ ∧
    syncPlaceholderWithValue (CalValue.multiple []) ⟨2024, 1, 1⟩ = ⟨2024, 1, 1⟩ :=
  ⟨(C8_placeholder_follows_value (CalValue.multiple [⟨2024, 3, 1⟩, ⟨2024, 3, 15⟩])
      ⟨2024, 1, 1⟩).1 [⟨2024, 3, 1⟩, ⟨2024, 3, 15⟩] ⟨2024, 3, 15⟩ rfl rfl,
    (C8_placeholder_follows_value (CalValue.single ⟨2024, 4, 2⟩) ⟨2024, 1, 1⟩).2.1
      ⟨2024, 4, 2⟩ rfl,
    (C8_placeholder_follows_value CalValue.undef ⟨2024, 1, 1⟩).2.2.1 rfl,
    (C8_placeholder_follows_value (CalValue.multiple []) ⟨2024, 1, 1⟩).2.2.2 rfl⟩

/-- Reconstructing a date from its absolute month index and projecting back
is the identity on month indices. -/
theorem monthIndex_monthOfIndex (i : Int) : monthIndex (monthOfIndex i) = i := by
  simp only [monthIndex, monthOfIndex]
  omega

/-- Claim C9: with paged navigation on, `nextPage` then `prevPage` restores
the visible window, each call jumping by exactly `numberOfMonths` months;
with it off, each call shifts the placeholder's month by exactly one in the
corresponding direction. -/
theorem C9_paging_roundtrip_and_shift (n : Nat) (d : CalDate) :
    windowMonths (prevPagePlaceholder true n (nextPagePlaceholder true n d)) n =
      windowMonths d n ∧
    monthIndex (nextPagePlaceholder true n d) = monthIndex d + n ∧
    monthIndex (prevPagePlaceholder true n d) = monthIndex d - n ∧
    monthIndex (nextPagePlaceholder false n d) = monthIndex d + 1 ∧
    monthIndex (prevPagePlaceholder false n d) = monthIndex d - 1 := by
  refine ⟨?_, ?_, ?_, ?_, ?_⟩
  · simp [windowMonths, nextPagePlaceholder, prevPagePlaceholder, monthIndex_monthOfIndex]
  · simp [nextPagePlaceholder, monthIndex_monthOfIndex]
  · simp [prevPagePlaceholder, monthIndex_monthOfIndex]
  · simp [nextPagePlaceholder, monthIndex_monthOfIndex]
  · simp [prevPagePlaceholder, monthIndex_monthOfIndex]

end BitsCalendar
